import Mathlib

/-!
Verification development for the DeepGlobe road-extraction code base.

The model code is embedded shallowly:

* an image tensor of shape `(C, H, W)` is a function `Fin C → Fin H → Fin W → α`
  over an ordered field `α` (the float arithmetic of the source is modeled by
  exact field arithmetic, `ℚ` for executable instances and `ℝ` where the
  sigmoid needs the real exponential);
* a stacked batch of 2 or 4 views (`torch.stack` / `torch.concatenate`) is a
  positional tuple, and a test batch of `B` images is a function `Fin B → _`;
* `torch.rot90 / torch.flip` become index permutations via `Fin.rev`;
* convolutions, transposed convolutions and eval-mode batch norm (a
  per-channel affine map) are written out as finite sums with zero padding;
* the torchvision backbone layers (`resnet.conv1`, `resnet.bn1`,
  `resnet.maxpool`, `resnet.layer1..layer4`) are external collaborators and
  appear as abstract shape-typed functions; everything owned by the
  repository (`DBlock`, `DBlockMoreDilate`, `DecoderBlock`, the D-LinkNet
  wiring, the TTA procedure of `test_step`) is embedded concretely.
-/

/-- An image tensor with `c` channels and spatial size `h × w`, channel first
as in the source. -/
abbrev Img (α : Type) (c h w : ℕ) : Type := Fin c → Fin h → Fin w → α

variable {α : Type} [LinearOrderedField α]
variable {c cl n h w B : ℕ}

/-- `torch.rot90(x, k=1, dims=[1, 2])` on a square `(C, n, n)` image: the
result at `(i, j)` is the input at `(j, n - 1 - i)`.  The TTA code stacks the
rotated view with the original, which `torch.stack` only allows for square
images, so the embedding fixes `h = w = n`. -/
def rot90 (x : Img α c n n) : Img α c n n := fun ch i j => x ch j i.rev

/-- `torch.flip(x, dims=[-2])` on a `(C, H, W)` image: vertical flip
(the flip at `dims=[2]` of a 4-D batch, applied per image). -/
def vflip (x : Img α c h w) : Img α c h w := fun ch i j => x ch i.rev j

/-- `torch.flip(x, dims=[-1])` on a `(C, H, W)` image: horizontal flip
(the flip at `dims=[3]` of a 4-D batch, applied per image). -/
def hflip (x : Img α c h w) : Img α c h w := fun ch i j => x ch i j.rev

theorem rot90_add (x y : Img α c n n) : rot90 (x + y) = rot90 x + rot90 y := rfl

theorem vflip_add (x y : Img α c h w) : vflip (x + y) = vflip x + vflip y := rfl

theorem hflip_add (x y : Img α c h w) : hflip (x + y) = hflip x + hflip y := rfl

/-- A stacked batch of two images (`torch.stack`), modeled positionally. -/
abbrev Batch2 (α : Type) (c n : ℕ) : Type := Img α c n n × Img α c n n

/-- A concatenated batch of four images, modeled positionally. -/
abbrev Batch4 (α : Type) (c n : ℕ) : Type :=
  Img α c n n × Img α c n n × Img α c n n × Img α c n n

/-- Apply a function to every element of a batch of four (how an eval-mode
network processes a stacked batch: per sample). -/
def map4 {I J : Type} (f : I → J) (b : I × I × I × I) : J × J × J × J :=
  (f b.1, f b.2.1, f b.2.2.1, f b.2.2.2)

/-- `main_segment.py` line 63–64: `img90 = torch.rot90(img, k=1, dims=[1, 2])`
and `img1 = torch.stack((img, img90))`. -/
def img1 (x : Img α c n n) : Batch2 α c n := (x, rot90 x)

/-- `img2 = torch.flip(img1, dims=[2])`: vertical flip of both stacked views. -/
def img2 (x : Img α c n n) : Batch2 α c n := (vflip (img1 x).1, vflip (img1 x).2)

/-- `img3 = torch.concatenate((img1, img2))`: the batch of 4 views
`{id, rot90, vflip, rot90+vflip}`. -/
def img3 (x : Img α c n n) : Batch4 α c n :=
  ((img1 x).1, (img1 x).2, (img2 x).1, (img2 x).2)

/-- `img4 = torch.flip(img3, dims=[3])`: horizontal flip of all four views. -/
def img4 (x : Img α c n n) : Batch4 α c n := map4 hflip (img3 x)

/-- `img5 = img3` (the commented-out renormalization is dead code). -/
def img5 (x : Img α c n n) : Batch4 α c n := img3 x

/-- `img6 = img4`. -/
def img6 (x : Img α c n n) : Batch4 α c n := img4 x

/-- `pred_a = self.segmentation_model(img5)`: first forward pass, over the
whole batch of 4 unflipped views. -/
def pred_a (net : Img α c n n → Img α cl n n) (x : Img α c n n) : Batch4 α cl n :=
  map4 net (img5 x)

/-- `pred_b = self.segmentation_model(img6)`: second forward pass, over the
whole batch of 4 horizontally flipped views. -/
def pred_b (net : Img α c n n → Img α cl n n) (x : Img α c n n) : Batch4 α cl n :=
  map4 net (img6 x)

/-- `pred1 = pred_a + torch.flip(pred_b, dims=[3])`: undo the horizontal flip
on the second pass and add, per batch element. -/
def pred1 (net : Img α c n n → Img α cl n n) (x : Img α c n n) : Batch4 α cl n :=
  ((pred_a net x).1 + hflip (pred_b net x).1,
   (pred_a net x).2.1 + hflip (pred_b net x).2.1,
   (pred_a net x).2.2.1 + hflip (pred_b net x).2.2.1,
   (pred_a net x).2.2.2 + hflip (pred_b net x).2.2.2)

/-- `pred2 = pred1[:2] + torch.flip(pred1[2:], dims=[2])`: undo the vertical
flip on the second half of the batch and add. -/
def pred2 (net : Img α c n n → Img α cl n n) (x : Img α c n n) : Batch2 α cl n :=
  ((pred1 net x).1 + vflip (pred1 net x).2.2.1,
   (pred1 net x).2.1 + vflip (pred1 net x).2.2.2)

/-- `pred3 = pred2[0] + torch.flip(torch.flip(torch.rot90(pred2[1], k=1,
dims=[1, 2]), dims=[1]), dims=[2])`: the raw accumulated TTA score map,
before any thresholding. -/
def pred3raw (net : Img α c n n → Img α cl n n) (x : Img α c n n) : Img α cl n n :=
  (pred2 net x).1 + hflip (vflip (rot90 (pred2 net x).2))

/-- The two-stage threshold of `test_step` applied to one raw score, with the
masked in-place assignments replayed sequentially:
`pred3[pred3 > 4.0] = 255`, `pred3[pred3 <= 4.0] = 0`, `pred3 = pred3 / 255.0`,
`pred3[pred3 >= 0.5] = 1.0`, `pred3[pred3 < 0.5] = 0.0`. -/
def thresh (v : α) : α :=
  let v1 := if 4 < v then 255 else v
  let v2 := if v1 ≤ 4 then 0 else v1
  let v3 := v2 / 255
  let v4 := if 1 / 2 ≤ v3 then 1 else v3
  if v4 < 1 / 2 then 0 else v4

/-- The final binary mask appended to `predictions_list` for one image. -/
def pred3 (net : Img α c n n → Img α cl n n) (x : Img α c n n) : Img α cl n n :=
  fun ch i j => thresh (pred3raw net x ch i j)

/-- The `for img in images` loop of `test_step` followed by `torch.stack`:
one binary mask per input image. -/
def test_step_predictions (net : Img α c n n → Img α cl n n)
    (images : Fin B → Img α c n n) : Fin B → Img α cl n n :=
  fun b => pred3 net (images b)

/-- Flatten a batch of four into the ordered list of tensors it stacks. -/
def batch4ToList {I : Type} (b : I × I × I × I) : List I := [b.1, b.2.1, b.2.2.1, b.2.2.2]

/-- The ordered views the first network invocation of `test_step` receives. -/
def codePass1Inputs (x : Img α c n n) : List (Img α c n n) := batch4ToList (img5 x)

/-- The ordered views the second network invocation of `test_step` receives. -/
def codePass2Inputs (x : Img α c n n) : List (Img α c n n) := batch4ToList (img6 x)

/-- Modeled from the spec sentence of claim C2: the first forward pass is
claimed to receive the first half (two views) of the batch of 4, unmodified. -/
def specPass1Inputs (x : Img α c n n) : List (Img α c n n) :=
  [(img3 x).1, (img3 x).2.1]

/-- Modeled from the spec sentence of claim C2: the second forward pass is
claimed to receive the second half (two views) of the batch of 4,
horizontally flipped. -/
def specPass2Inputs (x : Img α c n n) : List (Img α c n n) :=
  [hflip (img3 x).2.2.1, hflip (img3 x).2.2.2]

/-- The hypothesis of claim C1 read as stated: the network output, as a
function of the input, is unchanged by each generating geometric transform
(hence by all 8 composite views); every constant-output network satisfies
this. -/
def outputInvariant (net : Img α c n n → Img α cl n n) : Prop :=
  ∀ y, net (rot90 y) = net y ∧ net (vflip y) = net y ∧ net (hflip y) = net y

/-- A concrete `1 × 2 × 2` image with a single hot corner pixel. -/
def cornerImg : Img ℚ 1 2 2 := fun _ i j => if i = 0 ∧ j = 0 then 1 else 0

/-- The constant-output network returning `cornerImg` on every input. -/
def constCornerNet : Img ℚ 1 2 2 → Img ℚ 1 2 2 := fun _ => cornerImg

/-- A concrete all-zero `1 × 2 × 2` image. -/
def zeroImg2 : Img ℚ 1 2 2 := fun _ _ _ => 0

/-- The constant-output network returning the all-fives tensor. -/
def constFiveNet : Img ℚ 1 2 2 → Img ℚ 1 2 2 := fun _ => fun _ _ _ => 5

/-- C1 (counterexample): the claim as stated is false.  `constCornerNet` is a
constant-output network, so its output is invariant to all 8 geometric
transforms of the input, yet the raw accumulated TTA score map on the all-zero
image is not `8 ×` the single-pass output: the three inverse-transform-and-add
steps apply the flips and the rotation to the (asymmetric) output tensor
itself, producing the sum of its 8 dihedral transforms instead. -/
theorem C1_counterexample :
    outputInvariant constCornerNet ∧
    pred3raw constCornerNet zeroImg2 ≠ (8 : ℚ) • constCornerNet zeroImg2 := by
  refine ⟨fun _ => ⟨rfl, rfl, rfl⟩, fun hEq => ?_⟩
  have h00 := congrFun (congrFun (congrFun hEq 0) 0) 0
  simp only [pred3raw, pred2, pred1, pred_a, pred_b, img5, img6, img4, img3,
    img2, img1, map4, hflip, vflip, rot90, constCornerNet, cornerImg,
    Pi.add_apply, Pi.smul_apply, smul_eq_mul] at h00
  norm_num [Fin.rev, Fin.ext_iff] at h00

/-- C1 (amended): if the network output is invariant to the 8 transforms as a
function of the input, and in addition the output tensor itself is fixed by
the horizontal flip, the vertical flip and the 90° rotation (e.g. a network
constantly outputting a dihedrally symmetric map), then the raw accumulated
TTA score map equals `8 ×` the single-pass network output. -/
theorem C1_tta_roundtrip (net : Img ℚ c n n → Img ℚ cl n n) (x : Img ℚ c n n)
    (hinv : outputInvariant net)
    (fH : hflip (net x) = net x) (fV : vflip (net x) = net x)
    (fR : rot90 (net x) = net x) :
    pred3raw net x = (8 : ℚ) • net x := by
  have hR : ∀ y, net (rot90 y) = net y := fun y => (hinv y).1
  have hV : ∀ y, net (vflip y) = net y := fun y => (hinv y).2.1
  have hH : ∀ y, net (hflip y) = net y := fun y => (hinv y).2.2
  simp only [pred3raw, pred2, pred1, pred_a, pred_b, img5, img6, img4, img3,
    img2, img1, map4, hR, hV, hH, rot90_add, vflip_add, hflip_add, fH, fV, fR]
  funext ch i j
  simp only [Pi.add_apply, Pi.smul_apply, smul_eq_mul]
  ring

/-- Witness for C1: the amended round-trip theorem applied to the constant
all-fives network on the all-zero image. -/
theorem C1_witness :
    (hflip (constFiveNet zeroImg2) = constFiveNet zeroImg2) ∧
    pred3raw constFiveNet zeroImg2 = (8 : ℚ) • constFiveNet zeroImg2 :=
  ⟨rfl,
   C1_tta_roundtrip constFiveNet zeroImg2 (fun _ => ⟨rfl, rfl, rfl⟩)
     rfl rfl rfl⟩

/-- C2 (counterexample): the claim as stated is false on the all-zero image.
The two network invocations of `test_step` do not receive the two halves of
the batch of 4 (one unmodified, one horizontally flipped): already their
lengths are 4, not 2. -/
theorem C2_counterexample :
    ¬ (codePass1Inputs zeroImg2 = specPass1Inputs zeroImg2 ∧
       codePass2Inputs zeroImg2 = specPass2Inputs zeroImg2) := by
  intro hcontra
  have hlen := congrArg List.length hcontra.1
  simp [codePass1Inputs, specPass1Inputs, batch4ToList] at hlen

/-- C2 (amended): the 8-way augmentation `{id, rot90, vflip, rot90+vflip} ×
{no hflip, hflip}` is realized as two forward passes over batches of 4: the
full batch of 4 views is passed unmodified, and the same full batch of 4 is
horizontally flipped and passed. -/
theorem C2_two_passes_of_four (x : Img ℚ c n n) :
    codePass1Inputs x = [x, rot90 x, vflip x, vflip (rot90 x)] ∧
    codePass2Inputs x =
      [hflip x, hflip (rot90 x), hflip (vflip x), hflip (vflip (rot90 x))] :=
  ⟨rfl, rfl⟩

/-- The two-stage threshold collapses to a single strict comparison with 4. -/
theorem thresh_eq (v : α) : thresh v = if 4 < v then 1 else 0 := by
  by_cases hv : 4 < v
  · have h255 : ¬((255 : α) ≤ 4) := by norm_num
    simp only [thresh, if_pos hv, if_neg h255]
    norm_num
  · have hv4 : v ≤ 4 := le_of_not_lt hv
    simp only [thresh, if_neg hv, if_pos hv4]
    norm_num

/-- C3: the two-stage thresholding of `test_step` produces a mask whose every
pixel is exactly 0 or 1, and a pixel is 1 exactly when its raw accumulated
score was strictly greater than 4; the re-threshold at 0.5 never changes the
decision of the first threshold. -/
theorem C3_two_stage_threshold (net : Img ℚ c n n → Img ℚ cl n n)
    (x : Img ℚ c n n) (ch : Fin cl) (i j : Fin n) :
    (pred3 net x ch i j = 0 ∨ pred3 net x ch i j = 1) ∧
    (pred3 net x ch i j = 1 ↔ 4 < pred3raw net x ch i j) := by
  have h := thresh_eq (α := ℚ) (pred3raw net x ch i j)
  by_cases hv : 4 < pred3raw net x ch i j
  · refine ⟨Or.inr ?_, ?_⟩ <;> simp [pred3, h, hv]
  · refine ⟨Or.inl ?_, ?_⟩ <;> simp [pred3, h, hv]

/-- The identity network on `1 × 2 × 2` images. -/
def idNet : Img ℚ 1 2 2 → Img ℚ 1 2 2 := fun y => y

/-- A two-image test batch. -/
def imagesA2 : Fin 2 → Img ℚ 1 2 2 := fun b => if b = 0 then zeroImg2 else cornerImg

/-- A second two-image test batch agreeing with `imagesA2` only at index 0. -/
def imagesB2 : Fin 2 → Img ℚ 1 2 2 :=
  fun b => if b = 0 then zeroImg2 else fun _ _ _ => 3

/-- C9: the TTA procedure of `test_step` processes each image of the test
batch independently: the mask at index `b` is a function of `images b` and
the network alone, so changing any other image of the batch leaves it
unchanged. -/
theorem C9_per_image_independence (net : Img ℚ c n n → Img ℚ cl n n)
    (imagesA imagesB : Fin B → Img ℚ c n n) (b : Fin B)
    (hb : imagesA b = imagesB b) :
    test_step_predictions net imagesA b = test_step_predictions net imagesB b := by
  simp only [test_step_predictions, hb]

/-- Witness for C9: two batches that differ in their second image produce the
same mask for their (equal) first image. -/
theorem C9_witness :
    (imagesA2 0 = imagesB2 0) ∧
    test_step_predictions idNet imagesA2 0 = test_step_predictions idNet imagesB2 0 :=
  ⟨rfl, C9_per_image_independence idNet imagesA2 imagesB2 0 rfl⟩

/-- Convolution weights of a `k × k` kernel mapping `cin` to `cout` channels
(layout `[out_channels, in_channels, kH, kW]` as in `nn.Conv2d.weight`). -/
abbrev ConvW (α : Type) (cout cin k : ℕ) : Type :=
  Fin cout → Fin cin → Fin k → Fin k → α

/-- Read a pixel of a zero-padded image at integer coordinates. -/
def padGet (x : Img α c h w) (ch : Fin c) (i j : ℤ) : α :=
  if hij : 0 ≤ i ∧ i < (h : ℤ) ∧ 0 ≤ j ∧ j < (w : ℤ) then
    x ch ⟨i.toNat, by omega⟩ ⟨j.toNat, by omega⟩
  else 0

/-- `nn.Conv2d(cin, cout, kernel_size=3, dilation=d, padding=d)` (stride 1,
with bias): a 3×3 dilated convolution whose padding equals its dilation, so
the spatial size is preserved. -/
def conv2d (wt : ConvW α cout cin 3) (bias : Fin cout → α) (d : ℕ)
    (x : Img α cin h w) : Img α cout h w :=
  fun o i j =>
    bias o + ∑ ci : Fin cin, ∑ a : Fin 3, ∑ b : Fin 3,
      wt o ci a b *
        padGet x ci ((i : ℤ) + d * (a : ℤ) - d) ((j : ℤ) + d * (b : ℤ) - d)

/-- `F.relu` applied elementwise (the `non_linearity` of the source). -/
def relu (x : Img α c h w) : Img α c h w := fun ch i j => max (x ch i j) 0

/-- `nn.Conv2d(cin, cout, 1)`: a 1×1 convolution with bias. -/
def conv1x1 (wt : Fin cout → Fin cin → α) (bias : Fin cout → α)
    (x : Img α cin h w) : Img α cout h w :=
  fun o i j => bias o + ∑ ci : Fin cin, wt o ci * x ci i j

/-- `nn.BatchNorm2d` in eval mode: a per-channel affine map, parametrized by
its collapsed scale and shift. -/
def batchNorm (scale shift : Fin c → α) (x : Img α c h w) : Img α c h w :=
  fun ch i j => scale ch * x ch i j + shift ch

/-- The PyTorch output-size formula for a stride-`s` transposed convolution
with kernel `k`, padding `p` and output padding `op` on input size `d`. -/
def convTransOutDim (k s p op d : ℕ) : ℕ := s * (d - 1) + k + op - 2 * p

/-- `nn.ConvTranspose2d(cin, cout, 3, stride=2, padding=1, output_padding=1)`
(with bias): input position `m` and kernel tap `a` contribute to output
position `i = 2 * m - 1 + a`; the output spatial size is `2 * h` (the
instance of `convTransOutDim 3 2 1 1`).  Weight layout
`[in_channels, out_channels, kH, kW]` as in `nn.ConvTranspose2d.weight`. -/
def convTranspose3x3 (wt : ConvW α cin cout 3) (bias : Fin cout → α)
    (x : Img α cin h w) : Img α cout (2 * h) (2 * w) :=
  fun o i j =>
    bias o + ∑ ci : Fin cin, ∑ m : Fin h, ∑ s : Fin w, ∑ a : Fin 3, ∑ b : Fin 3,
      if 2 * (m : ℕ) + (a : ℕ) = (i : ℕ) + 1 ∧ 2 * (s : ℕ) + (b : ℕ) = (j : ℕ) + 1 then
        wt ci o a b * x ci m s
      else 0

/-- `nn.ConvTranspose2d(cin, cout, 4, 2, 1)` (with bias): the final
upsampling layer; output position `i = 2 * m - 1 + a` with a 4×4 kernel,
output spatial size `2 * h`. -/
def convTranspose4x4 (wt : ConvW α cin cout 4) (bias : Fin cout → α)
    (x : Img α cin h w) : Img α cout (2 * h) (2 * w) :=
  fun o i j =>
    bias o + ∑ ci : Fin cin, ∑ m : Fin h, ∑ s : Fin w, ∑ a : Fin 4, ∑ b : Fin 4,
      if 2 * (m : ℕ) + (a : ℕ) = (i : ℕ) + 1 ∧ 2 * (s : ℕ) + (b : ℕ) = (j : ℕ) + 1 then
        wt ci o a b * x ci m s
      else 0

/-- Parameters of `DBlock(channel)`: four 3×3 dilated convolutions
`dilate1 .. dilate4` with dilations 1, 2, 4, 8, each with a bias. -/
structure DBlockParams (α : Type) (channel : ℕ) where
  dilate1_w : ConvW α channel channel 3
  dilate1_b : Fin channel → α
  dilate2_w : ConvW α channel channel 3
  dilate2_b : Fin channel → α
  dilate3_w : ConvW α channel channel 3
  dilate3_b : Fin channel → α
  dilate4_w : ConvW α channel channel 3
  dilate4_b : Fin channel → α

/-- Parameters of `DBlockMoreDilate(channel)`: five 3×3 dilated convolutions
`dilate1 .. dilate5` with dilations 1, 2, 4, 8, 16, each with a bias. -/
structure DBlockMoreDilateParams (α : Type) (channel : ℕ) where
  dilate1_w : ConvW α channel channel 3
  dilate1_b : Fin channel → α
  dilate2_w : ConvW α channel channel 3
  dilate2_b : Fin channel → α
  dilate3_w : ConvW α channel channel 3
  dilate3_b : Fin channel → α
  dilate4_w : ConvW α channel channel 3
  dilate4_b : Fin channel → α
  dilate5_w : ConvW α channel channel 3
  dilate5_b : Fin channel → α

/-- `DBlock.__init__`: the convolutions are created (with fresh weights and
biases `p0`) and then every `nn.Conv2d` / `nn.ConvTranspose2d` bias in the
block is zeroed in place; the block contains only the four `nn.Conv2d`. -/
def DBlock.init {channel : ℕ} (p0 : DBlockParams α channel) : DBlockParams α channel :=
  { p0 with
    dilate1_b := fun _ => 0
    dilate2_b := fun _ => 0
    dilate3_b := fun _ => 0
    dilate4_b := fun _ => 0 }

/-- `DBlockMoreDilate.__init__`: same zeroing of every convolution bias. -/
def DBlockMoreDilate.init {channel : ℕ} (p0 : DBlockMoreDilateParams α channel) :
    DBlockMoreDilateParams α channel :=
  { p0 with
    dilate1_b := fun _ => 0
    dilate2_b := fun _ => 0
    dilate3_b := fun _ => 0
    dilate4_b := fun _ => 0
    dilate5_b := fun _ => 0 }

/-- `DBlock.forward`: the strictly sequential dilation chain, each stage
consuming the previous stage's output, and the residual accumulation of the
input with all four intermediate activations. -/
def DBlock.forward {channel : ℕ} (p : DBlockParams α channel)
    (x : Img α channel h w) : Img α channel h w :=
  let dilate1_out := relu (conv2d p.dilate1_w p.dilate1_b 1 x)
  let dilate2_out := relu (conv2d p.dilate2_w p.dilate2_b 2 dilate1_out)
  let dilate3_out := relu (conv2d p.dilate3_w p.dilate3_b 4 dilate2_out)
  let dilate4_out := relu (conv2d p.dilate4_w p.dilate4_b 8 dilate3_out)
  x + dilate1_out + dilate2_out + dilate3_out + dilate4_out

/-- `DBlockMoreDilate.forward`: five sequential dilated stages and the
residual accumulation of the input with all five activations. -/
def DBlockMoreDilate.forward {channel : ℕ} (p : DBlockMoreDilateParams α channel)
    (x : Img α channel h w) : Img α channel h w :=
  let dilate1_out := relu (conv2d p.dilate1_w p.dilate1_b 1 x)
  let dilate2_out := relu (conv2d p.dilate2_w p.dilate2_b 2 dilate1_out)
  let dilate3_out := relu (conv2d p.dilate3_w p.dilate3_b 4 dilate2_out)
  let dilate4_out := relu (conv2d p.dilate4_w p.dilate4_b 8 dilate3_out)
  let dilate5_out := relu (conv2d p.dilate5_w p.dilate5_b 16 dilate4_out)
  x + dilate1_out + dilate2_out + dilate3_out + dilate4_out + dilate5_out

/-- The dilation schedule of the center blocks, stage by stage. -/
def dblockRates : ℕ → ℕ := fun k =>
  match k with
  | 0 => 1
  | 1 => 2
  | 2 => 4
  | 3 => 8
  | _ => 16

/-- The convolution weights of a `DBlock`, as a stage-indexed sequence. -/
def DBlock.weightSeq {channel : ℕ} (p : DBlockParams α channel) :
    ℕ → ConvW α channel channel 3 := fun k =>
  match k with
  | 0 => p.dilate1_w
  | 1 => p.dilate2_w
  | 2 => p.dilate3_w
  | _ => p.dilate4_w

/-- The convolution biases of a `DBlock`, as a stage-indexed sequence. -/
def DBlock.biasSeq {channel : ℕ} (p : DBlockParams α channel) :
    ℕ → Fin channel → α := fun k =>
  match k with
  | 0 => p.dilate1_b
  | 1 => p.dilate2_b
  | 2 => p.dilate3_b
  | _ => p.dilate4_b

/-- The convolution weights of a `DBlockMoreDilate`, stage-indexed. -/
def DBlockMoreDilate.weightSeq {channel : ℕ} (p : DBlockMoreDilateParams α channel) :
    ℕ → ConvW α channel channel 3 := fun k =>
  match k with
  | 0 => p.dilate1_w
  | 1 => p.dilate2_w
  | 2 => p.dilate3_w
  | 3 => p.dilate4_w
  | _ => p.dilate5_w

/-- The convolution biases of a `DBlockMoreDilate`, stage-indexed. -/
def DBlockMoreDilate.biasSeq {channel : ℕ} (p : DBlockMoreDilateParams α channel) :
    ℕ → Fin channel → α := fun k =>
  match k with
  | 0 => p.dilate1_b
  | 1 => p.dilate2_b
  | 2 => p.dilate3_b
  | 3 => p.dilate4_b
  | _ => p.dilate5_b

/-- The spec's description of the center block as a strictly sequential
chain: stage `k` is a rectified dilated convolution of stage `k - 1`
(stage 0 consumes the block input). -/
def dilationChain {channel : ℕ} (ws : ℕ → ConvW α channel channel 3)
    (bs : ℕ → Fin channel → α) (rates : ℕ → ℕ) (x : Img α channel h w) :
    ℕ → Img α channel h w
  | 0 => relu (conv2d (ws 0) (bs 0) (rates 0) x)
  | k + 1 => relu (conv2d (ws (k + 1)) (bs (k + 1)) (rates (k + 1))
      (dilationChain ws bs rates x k))

/-- C4: both center blocks compute a strictly sequential chain of rectified
dilated convolutions — stage `k` consuming stage `k - 1`'s output, with
dilation rates `dblockRates` = 1, 2, 4, 8 (and 16 for the more-dilate
variant) — and the output is the input plus the elementwise sum of all
intermediate activations (4 of them for `DBlock`, 5 for
`DBlockMoreDilate`); the input and output shapes agree by the types. -/
theorem C4_center_block_chain {channel : ℕ} (p : DBlockParams α channel)
    (x : Img α channel h w) (q : DBlockMoreDilateParams α channel)
    (y : Img α channel h w) :
    DBlock.forward p x =
      x + ∑ k ∈ Finset.range 4,
        dilationChain (DBlock.weightSeq p) (DBlock.biasSeq p) dblockRates x k ∧
    DBlockMoreDilate.forward q y =
      y + ∑ k ∈ Finset.range 5,
        dilationChain (DBlockMoreDilate.weightSeq q) (DBlockMoreDilate.biasSeq q)
          dblockRates y k := by
  constructor
  · rw [Finset.sum_range_succ, Finset.sum_range_succ, Finset.sum_range_succ,
      Finset.sum_range_one]
    have h0 : dilationChain (DBlock.weightSeq p) (DBlock.biasSeq p) dblockRates x 0 =
        relu (conv2d p.dilate1_w p.dilate1_b 1 x) := rfl
    have h1 : dilationChain (DBlock.weightSeq p) (DBlock.biasSeq p) dblockRates x 1 =
        relu (conv2d p.dilate2_w p.dilate2_b 2
          (dilationChain (DBlock.weightSeq p) (DBlock.biasSeq p) dblockRates x 0)) := rfl
    have h2 : dilationChain (DBlock.weightSeq p) (DBlock.biasSeq p) dblockRates x 2 =
        relu (conv2d p.dilate3_w p.dilate3_b 4
          (dilationChain (DBlock.weightSeq p) (DBlock.biasSeq p) dblockRates x 1)) := rfl
    have h3 : dilationChain (DBlock.weightSeq p) (DBlock.biasSeq p) dblockRates x 3 =
        relu (conv2d p.dilate4_w p.dilate4_b 8
          (dilationChain (DBlock.weightSeq p) (DBlock.biasSeq p) dblockRates x 2)) := rfl
    rw [h3, h2, h1, h0]
    simp only [DBlock.forward, add_assoc]
  · rw [Finset.sum_range_succ, Finset.sum_range_succ, Finset.sum_range_succ,
      Finset.sum_range_succ, Finset.sum_range_one]
    have h0 : dilationChain (DBlockMoreDilate.weightSeq q) (DBlockMoreDilate.biasSeq q)
        dblockRates y 0 = relu (conv2d q.dilate1_w q.dilate1_b 1 y) := rfl
    have h1 : dilationChain (DBlockMoreDilate.weightSeq q) (DBlockMoreDilate.biasSeq q)
        dblockRates y 1 = relu (conv2d q.dilate2_w q.dilate2_b 2
          (dilationChain (DBlockMoreDilate.weightSeq q) (DBlockMoreDilate.biasSeq q)
            dblockRates y 0)) := rfl
    have h2 : dilationChain (DBlockMoreDilate.weightSeq q) (DBlockMoreDilate.biasSeq q)
        dblockRates y 2 = relu (conv2d q.dilate3_w q.dilate3_b 4
          (dilationChain (DBlockMoreDilate.weightSeq q) (DBlockMoreDilate.biasSeq q)
            dblockRates y 1)) := rfl
    have h3 : dilationChain (DBlockMoreDilate.weightSeq q) (DBlockMoreDilate.biasSeq q)
        dblockRates y 3 = relu (conv2d q.dilate4_w q.dilate4_b 8
          (dilationChain (DBlockMoreDilate.weightSeq q) (DBlockMoreDilate.biasSeq q)
            dblockRates y 2)) := rfl
    have h4 : dilationChain (DBlockMoreDilate.weightSeq q) (DBlockMoreDilate.biasSeq q)
        dblockRates y 4 = relu (conv2d q.dilate5_w q.dilate5_b 16
          (dilationChain (DBlockMoreDilate.weightSeq q) (DBlockMoreDilate.biasSeq q)
            dblockRates y 3)) := rfl
    rw [h4, h3, h2, h1, h0]
    simp only [DBlockMoreDilate.forward, add_assoc]

/-- C5: immediately after construction of a `DBlock` or a
`DBlockMoreDilate`, the bias of every convolutional layer in the block is
zero, whatever the freshly created parameters were (the blocks contain no
transposed convolutions, so the `nn.ConvTranspose2d` arm of the zeroing loop
is vacuous). -/
theorem C5_bias_zero_at_init {channel : ℕ} (p0 : DBlockParams α channel)
    (q0 : DBlockMoreDilateParams α channel) :
    ((DBlock.init p0).dilate1_b = fun _ => 0) ∧
    ((DBlock.init p0).dilate2_b = fun _ => 0) ∧
    ((DBlock.init p0).dilate3_b = fun _ => 0) ∧
    ((DBlock.init p0).dilate4_b = fun _ => 0) ∧
    ((DBlockMoreDilate.init q0).dilate1_b = fun _ => 0) ∧
    ((DBlockMoreDilate.init q0).dilate2_b = fun _ => 0) ∧
    ((DBlockMoreDilate.init q0).dilate3_b = fun _ => 0) ∧
    ((DBlockMoreDilate.init q0).dilate4_b = fun _ => 0) ∧
    ((DBlockMoreDilate.init q0).dilate5_b = fun _ => 0) :=
  ⟨rfl, rfl, rfl, rfl, rfl, rfl, rfl, rfl, rfl⟩

/-- Parameters of `DecoderBlock(in_channels, n_filters)`: a 1×1 convolution
to `in_channels // 4`, a 3×3 stride-2 transposed convolution keeping
`in_channels // 4`, a 1×1 convolution to `n_filters`, each followed by an
eval-mode batch norm (collapsed to scale and shift). -/
structure DecoderBlockParams (α : Type) (in_channels n_filters : ℕ) where
  conv1_w : Fin (in_channels / 4) → Fin in_channels → α
  conv1_b : Fin (in_channels / 4) → α
  norm1_scale : Fin (in_channels / 4) → α
  norm1_shift : Fin (in_channels / 4) → α
  deconv2_w : ConvW α (in_channels / 4) (in_channels / 4) 3
  deconv2_b : Fin (in_channels / 4) → α
  norm2_scale : Fin (in_channels / 4) → α
  norm2_shift : Fin (in_channels / 4) → α
  conv3_w : Fin n_filters → Fin (in_channels / 4) → α
  conv3_b : Fin n_filters → α
  norm3_scale : Fin n_filters → α
  norm3_shift : Fin n_filters → α

/-- `DecoderBlock.forward`, replaying the imperative reassignment chain of
the source: conv1 → norm1 → relu1 → deconv2 → norm2 → relu2 → conv3 →
norm3 → relu3.  The type records that the output has exactly `n_filters`
channels and spatial size `2 * h × 2 * w`. -/
def DecoderBlock.forward {cin cout : ℕ} (p : DecoderBlockParams α cin cout)
    (x : Img α cin h w) : Img α cout (2 * h) (2 * w) :=
  let x1 := conv1x1 p.conv1_w p.conv1_b x
  let x2 := batchNorm p.norm1_scale p.norm1_shift x1
  let x3 := relu x2
  let x4 := convTranspose3x3 p.deconv2_w p.deconv2_b x3
  let x5 := batchNorm p.norm2_scale p.norm2_shift x4
  let x6 := relu x5
  let x7 := conv1x1 p.conv3_w p.conv3_b x6
  let x8 := batchNorm p.norm3_scale p.norm3_shift x7
  relu x8

/-- The decoder pipeline as the spec words it: a composition
`relu ∘ norm ∘ 1×1-conv(→ C_out) ∘ relu ∘ norm ∘ stride-2-deconv ∘ relu ∘
norm ∘ 1×1-conv(→ C_in/4)`. -/
def decoderBlockSpec {cin cout : ℕ} (p : DecoderBlockParams α cin cout)
    (x : Img α cin h w) : Img α cout (2 * h) (2 * w) :=
  (relu ∘ batchNorm p.norm3_scale p.norm3_shift ∘ conv1x1 p.conv3_w p.conv3_b ∘
   relu ∘ batchNorm p.norm2_scale p.norm2_shift ∘
   convTranspose3x3 p.deconv2_w p.deconv2_b ∘
   relu ∘ batchNorm p.norm1_scale p.norm1_shift ∘ conv1x1 p.conv1_w p.conv1_b) x

/-- C6: `DecoderBlock` computes exactly the spec's pipeline — 1×1 convolution
to `C_in / 4` channels, normalization, nonlinearity, a stride-2 transposed
convolution (kernel 3, padding 1, output padding 1) keeping `C_in / 4`
channels, normalization, nonlinearity, 1×1 convolution to `C_out` channels,
normalization, nonlinearity — and (by the types together with the PyTorch
output-size formula `convTransOutDim`) its output has exactly `C_out`
channels and spatial size `2 * h × 2 * w` for every nonempty input size. -/
theorem C6_decoder_block {d : ℕ} (hd : 1 ≤ d) :
    convTransOutDim 3 2 1 1 d = 2 * d ∧
    ∀ (cin cout h w : ℕ) (p : DecoderBlockParams α cin cout) (x : Img α cin h w),
      DecoderBlock.forward p x = decoderBlockSpec p x := by
  refine ⟨by unfold convTransOutDim; omega, fun cin cout h w p x => rfl⟩

/-- Witness for C6 at input size 5. -/
theorem C6_witness : 1 ≤ 5 ∧ convTransOutDim 3 2 1 1 5 = 2 * 5 :=
  ⟨by decide, (C6_decoder_block (α := ℚ) (d := 5) (by decide)).1⟩

/-- The backbone weight sources a network constructor can resolve. -/
inductive BackboneSrc
  | random
  | imagenet
  | seco100k
  | seco1m
deriving DecidableEq

/-- The if/elif/else chain shared by `DLinkNet18.__init__`,
`DLinkNet18HeadsV1/V2/V3.__init__`, `CBAMDLinkNet18.__init__` and
`DLinkNet50.__init__`: four recognized sources, everything else raises
`ValueError` (modeled as `none`). -/
def selectBackbone18 (s : String) : Option BackboneSrc :=
  if s = "random" then some .random
  else if s = "imagenet" then some .imagenet
  else if s = "seco-100k" then some .seco100k
  else if s = "seco-1m" then some .seco1m
  else none

/-- The if/elif/else chain of `DLinkNet34.__init__`: three recognized
sources (`random`, `imagenet`, `seco-1m`), everything else raises
`ValueError` (modeled as `none`). -/
def selectBackbone34 (s : String) : Option BackboneSrc :=
  if s = "random" then some .random
  else if s = "imagenet" then some .imagenet
  else if s = "seco-1m" then some .seco1m
  else none

/-- The network classes of the family whose constructor takes a backbone
weight-source string. -/
inductive NetClass
  | dlink18
  | dlink18HeadsV1
  | dlink18HeadsV2
  | dlink18HeadsV3
  | cbamDlink18
  | dlink34
  | dlink50
deriving DecidableEq

/-- The backbone dispatch of each constructor in the family. -/
def NetClass.selectBackbone : NetClass → String → Option BackboneSrc
  | .dlink18 => selectBackbone18
  | .dlink18HeadsV1 => selectBackbone18
  | .dlink18HeadsV2 => selectBackbone18
  | .dlink18HeadsV3 => selectBackbone18
  | .cbamDlink18 => selectBackbone18
  | .dlink34 => selectBackbone34
  | .dlink50 => selectBackbone18

/-- C7: for every network class of the family that takes a weight-source
string, construction with the string "bogus" resolves no backbone — the
constructor raises `ValueError` instead of silently substituting a default
(the remaining classes `DLinkNet34LessPool`, `DLinkNet101`, `LinkNet34` take
no weight-source argument at all). -/
theorem C7_bogus_backbone_fails (cls : NetClass) :
    cls.selectBackbone "bogus" = none := by
  cases cls <;> rfl

/-- `torch.sigmoid`, over the reals. -/
noncomputable def sigmoid (t : ℝ) : ℝ := 1 / (1 + Real.exp (-t))

theorem sigmoid_nonneg (t : ℝ) : 0 ≤ sigmoid t := by
  have h : (0 : ℝ) < 1 + Real.exp (-t) :=
    add_pos one_pos (Real.exp_pos _)
  exact le_of_lt (div_pos one_pos h)

theorem sigmoid_le_one (t : ℝ) : sigmoid t ≤ 1 := by
  have h : (0 : ℝ) < 1 + Real.exp (-t) :=
    add_pos one_pos (Real.exp_pos _)
  rw [sigmoid, div_le_one h]
  exact le_add_of_nonneg_right (le_of_lt (Real.exp_pos _))

/-- The torchvision backbone layers wired into a D-LinkNet (external
collaborators: `resnet.conv1`, `resnet.bn1`, `resnet.maxpool`,
`resnet.layer1 .. layer4`), as abstract shape-typed functions.  The input
spatial size is `32 h × 32 w` (written as nested doublings): the stem conv
and the max pool each halve it, and the four stages leave it, halve it,
halve it and halve it, with the per-depth channel schedule `f1 → f2 → f3 →
f4`. -/
structure DLinkEncoder (f1 f2 f3 f4 h w : ℕ) where
  first_conv : Img ℝ 3 (2 * (2 * (2 * (2 * (2 * h))))) (2 * (2 * (2 * (2 * (2 * w))))) →
    Img ℝ 64 (2 * (2 * (2 * (2 * h)))) (2 * (2 * (2 * (2 * w))))
  first_bn : Img ℝ 64 (2 * (2 * (2 * (2 * h)))) (2 * (2 * (2 * (2 * w)))) →
    Img ℝ 64 (2 * (2 * (2 * (2 * h)))) (2 * (2 * (2 * (2 * w))))
  first_max_pool : Img ℝ 64 (2 * (2 * (2 * (2 * h)))) (2 * (2 * (2 * (2 * w)))) →
    Img ℝ 64 (2 * (2 * (2 * h))) (2 * (2 * (2 * w)))
  encoder1 : Img ℝ 64 (2 * (2 * (2 * h))) (2 * (2 * (2 * w))) →
    Img ℝ f1 (2 * (2 * (2 * h))) (2 * (2 * (2 * w)))
  encoder2 : Img ℝ f1 (2 * (2 * (2 * h))) (2 * (2 * (2 * w))) →
    Img ℝ f2 (2 * (2 * h)) (2 * (2 * w))
  encoder3 : Img ℝ f2 (2 * (2 * h)) (2 * (2 * w)) → Img ℝ f3 (2 * h) (2 * w)
  encoder4 : Img ℝ f3 (2 * h) (2 * w) → Img ℝ f4 h w

/-- The repository-owned decoder side of a D-LinkNet: four decoder blocks
and the final head (`final_deconv1` with a 4×4 stride-2 kernel,
`final_conv2`, `final_conv3`). -/
structure DLinkDecoders (f1 f2 f3 f4 ncls : ℕ) where
  decoder4 : DecoderBlockParams ℝ f4 f3
  decoder3 : DecoderBlockParams ℝ f3 f2
  decoder2 : DecoderBlockParams ℝ f2 f1
  decoder1 : DecoderBlockParams ℝ f1 f1
  final_deconv1_w : ConvW ℝ f1 32 4
  final_deconv1_b : Fin 32 → ℝ
  final_conv2_w : ConvW ℝ 32 32 3
  final_conv2_b : Fin 32 → ℝ
  final_conv3_w : ConvW ℝ ncls 32 3
  final_conv3_b : Fin ncls → ℝ

/-- The shared `forward` wiring of the D-LinkNet family: encoder pyramid,
center block, decoder chain with additive skip connections from the
matching encoder levels (none for the innermost stage), final head and
sigmoid.  The type records that a `32 h × 32 w` input produces an
`ncls × 32 h × 32 w` output. -/
noncomputable def dlinkForward {f1 f2 f3 f4 ncls h w : ℕ}
    (enc : DLinkEncoder f1 f2 f3 f4 h w)
    (center : Img ℝ f4 h w → Img ℝ f4 h w)
    (dec : DLinkDecoders f1 f2 f3 f4 ncls)
    (x : Img ℝ 3 (2 * (2 * (2 * (2 * (2 * h))))) (2 * (2 * (2 * (2 * (2 * w)))))) :
    Img ℝ ncls (2 * (2 * (2 * (2 * (2 * h))))) (2 * (2 * (2 * (2 * (2 * w))))) :=
  let x1 := enc.first_conv x
  let x2 := enc.first_bn x1
  let x3 := relu x2
  let x4 := enc.first_max_pool x3
  let e1 := enc.encoder1 x4
  let e2 := enc.encoder2 e1
  let e3 := enc.encoder3 e2
  let e4 := enc.encoder4 e3
  let e4c := center e4
  let d4 := DecoderBlock.forward dec.decoder4 e4c + e3
  let d3 := DecoderBlock.forward dec.decoder3 d4 + e2
  let d2 := DecoderBlock.forward dec.decoder2 d3 + e1
  let d1 := DecoderBlock.forward dec.decoder1 d2
  let out1 := convTranspose4x4 dec.final_deconv1_w dec.final_deconv1_b d1
  let out2 := relu out1
  let out3 := conv2d dec.final_conv2_w dec.final_conv2_b 1 out2
  let out4 := relu out3
  let out5 := conv2d dec.final_conv3_w dec.final_conv3_b 1 out4
  fun ch i j => sigmoid (out5 ch i j)

/-- `DLinkNet18.forward`: channel schedule 64 → 128 → 256 → 512, center
block `DBlock(512)`. -/
noncomputable def DLinkNet18.forward {ncls h w : ℕ}
    (enc : DLinkEncoder 64 128 256 512 h w) (p : DBlockParams ℝ 512)
    (dec : DLinkDecoders 64 128 256 512 ncls)
    (x : Img ℝ 3 (2 * (2 * (2 * (2 * (2 * h))))) (2 * (2 * (2 * (2 * (2 * w)))))) :
    Img ℝ ncls (2 * (2 * (2 * (2 * (2 * h))))) (2 * (2 * (2 * (2 * (2 * w))))) :=
  dlinkForward enc (DBlock.forward p) dec x

/-- `DLinkNet34.forward` (with the default `interp_mode=None`, i.e. the
identity `up_sample`): same wiring and channel schedule as the depth-18
variant, over the depth-34 torchvision backbone. -/
noncomputable def DLinkNet34.forward {ncls h w : ℕ}
    (enc : DLinkEncoder 64 128 256 512 h w) (p : DBlockParams ℝ 512)
    (dec : DLinkDecoders 64 128 256 512 ncls)
    (x : Img ℝ 3 (2 * (2 * (2 * (2 * (2 * h))))) (2 * (2 * (2 * (2 * (2 * w)))))) :
    Img ℝ ncls (2 * (2 * (2 * (2 * (2 * h))))) (2 * (2 * (2 * (2 * (2 * w))))) :=
  dlinkForward enc (DBlock.forward p) dec x

/-- `DLinkNet50.forward`: channel schedule 256 → 512 → 1024 → 2048, center
block `DBlockMoreDilate(2048)`. -/
noncomputable def DLinkNet50.forward {ncls h w : ℕ}
    (enc : DLinkEncoder 256 512 1024 2048 h w) (p : DBlockMoreDilateParams ℝ 2048)
    (dec : DLinkDecoders 256 512 1024 2048 ncls)
    (x : Img ℝ 3 (2 * (2 * (2 * (2 * (2 * h))))) (2 * (2 * (2 * (2 * (2 * w)))))) :
    Img ℝ ncls (2 * (2 * (2 * (2 * (2 * h))))) (2 * (2 * (2 * (2 * (2 * w))))) :=
  dlinkForward enc (DBlockMoreDilate.forward p) dec x

/-- `DLinkNet101.forward`: same wiring as the depth-50 variant over the
depth-101 torchvision backbone. -/
noncomputable def DLinkNet101.forward {ncls h w : ℕ}
    (enc : DLinkEncoder 256 512 1024 2048 h w) (p : DBlockMoreDilateParams ℝ 2048)
    (dec : DLinkDecoders 256 512 1024 2048 ncls)
    (x : Img ℝ 3 (2 * (2 * (2 * (2 * (2 * h))))) (2 * (2 * (2 * (2 * (2 * w)))))) :
    Img ℝ ncls (2 * (2 * (2 * (2 * (2 * h))))) (2 * (2 * (2 * (2 * (2 * w))))) :=
  dlinkForward enc (DBlockMoreDilate.forward p) dec x

/-- Apply a network to a batch of `B` images, per sample (eval mode). -/
def batched {c1 h1 w1 c2 h2 w2 : ℕ} (f : Img ℝ c1 h1 w1 → Img ℝ c2 h2 w2)
    (xb : Fin B → Img ℝ c1 h1 w1) : Fin B → Img ℝ c2 h2 w2 :=
  fun b => f (xb b)

/-- C8: for every supported backbone depth (18 and 34 with `DBlock`, 50 and
101 with `DBlockMoreDilate`), `forward` on a batch of shape
`(B, 3, 32 h, 32 w)` — i.e. height and width divisible by 32 — returns a
batch of shape `(B, 1, 32 h, 32 w)` (recorded by the types) whose every
value lies in the closed interval `[0, 1]`. -/
theorem C8_forward_in_unit_interval :
    (∀ (h w B : ℕ) (enc : DLinkEncoder 64 128 256 512 h w)
       (p : DBlockParams ℝ 512) (dec : DLinkDecoders 64 128 256 512 1)
       (xb : Fin B → Img ℝ 3 (2 * (2 * (2 * (2 * (2 * h))))) (2 * (2 * (2 * (2 * (2 * w))))))
       (b : Fin B) (ch : Fin 1)
       (i : Fin (2 * (2 * (2 * (2 * (2 * h)))))) (j : Fin (2 * (2 * (2 * (2 * (2 * w)))))),
       0 ≤ batched (DLinkNet18.forward enc p dec) xb b ch i j ∧
         batched (DLinkNet18.forward enc p dec) xb b ch i j ≤ 1) ∧
    (∀ (h w B : ℕ) (enc : DLinkEncoder 64 128 256 512 h w)
       (p : DBlockParams ℝ 512) (dec : DLinkDecoders 64 128 256 512 1)
       (xb : Fin B → Img ℝ 3 (2 * (2 * (2 * (2 * (2 * h))))) (2 * (2 * (2 * (2 * (2 * w))))))
       (b : Fin B) (ch : Fin 1)
       (i : Fin (2 * (2 * (2 * (2 * (2 * h)))))) (j : Fin (2 * (2 * (2 * (2 * (2 * w)))))),
       0 ≤ batched (DLinkNet34.forward enc p dec) xb b ch i j ∧
         batched (DLinkNet34.forward enc p dec) xb b ch i j ≤ 1) ∧
    (∀ (h w B : ℕ) (enc : DLinkEncoder 256 512 1024 2048 h w)
       (p : DBlockMoreDilateParams ℝ 2048) (dec : DLinkDecoders 256 512 1024 2048 1)
       (xb : Fin B → Img ℝ 3 (2 * (2 * (2 * (2 * (2 * h))))) (2 * (2 * (2 * (2 * (2 * w))))))
       (b : Fin B) (ch : Fin 1)
       (i : Fin (2 * (2 * (2 * (2 * (2 * h)))))) (j : Fin (2 * (2 * (2 * (2 * (2 * w)))))),
       0 ≤ batched (DLinkNet50.forward enc p dec) xb b ch i j ∧
         batched (DLinkNet50.forward enc p dec) xb b ch i j ≤ 1) ∧
    (∀ (h w B : ℕ) (enc : DLinkEncoder 256 512 1024 2048 h w)
       (p : DBlockMoreDilateParams ℝ 2048) (dec : DLinkDecoders 256 512 1024 2048 1)
       (xb : Fin B → Img ℝ 3 (2 * (2 * (2 * (2 * (2 * h))))) (2 * (2 * (2 * (2 * (2 * w))))))
       (b : Fin B) (ch : Fin 1)
       (i : Fin (2 * (2 * (2 * (2 * (2 * h)))))) (j : Fin (2 * (2 * (2 * (2 * (2 * w)))))),
       0 ≤ batched (DLinkNet101.forward enc p dec) xb b ch i j ∧
         batched (DLinkNet101.forward enc p dec) xb b ch i j ≤ 1) := by
  refine ⟨?_, ?_, ?_, ?_⟩ <;>
    · intro h w B enc p dec xb b ch i j
      exact ⟨sigmoid_nonneg _, sigmoid_le_one _⟩

/-- The interpolation modes `nn.Upsample` accepts for 4-D input. -/
inductive InterpMode
  | nearest
  | bilinear
  | bicubic

/-- The spatial size produced by the `up_sample` stage of `DLinkNet34`:
unchanged for `interp_mode=None` (an `nn.Identity`), and the fixed 1024 for
any supplied mode (an `nn.Upsample(size=(1024, 1024), mode=interp_mode)`). -/
def interpSize (interp : Option InterpMode) (d : ℕ) : ℕ :=
  match interp with
  | none => d
  | some _ => 1024

/-- The `up_sample` stage of `DLinkNet34`, parametrized by the external
interpolation operator `resize` that `nn.Upsample` delegates to. -/
def up_sample (resize : (c h w : ℕ) → Img ℝ c h w → Img ℝ c 1024 1024)
    {c h w : ℕ} :
    (interp : Option InterpMode) → Img ℝ c h w →
      Img ℝ c (interpSize interp h) (interpSize interp w)
  | none, x => x
  | some _, x => resize c h w x

/-- `DLinkNet34.forward` with the default `interp_mode=None`: the
`up_sample` stage is applied before the encoder and is the identity, so the
output spatial size equals the input spatial size `32 h × 32 w`. -/
noncomputable def DLinkNet34.forwardDefault {ncls h w : ℕ}
    (enc : DLinkEncoder 64 128 256 512 h w) (p : DBlockParams ℝ 512)
    (dec : DLinkDecoders 64 128 256 512 ncls)
    (resize : (c h w : ℕ) → Img ℝ c h w → Img ℝ c 1024 1024)
    (x : Img ℝ 3 (2 * (2 * (2 * (2 * (2 * h))))) (2 * (2 * (2 * (2 * (2 * w)))))) :
    Img ℝ ncls (2 * (2 * (2 * (2 * (2 * h))))) (2 * (2 * (2 * (2 * (2 * w))))) :=
  dlinkForward enc (DBlock.forward p) dec (up_sample resize none x)

/-- `DLinkNet34.forward` with a supplied `interp_mode`: the `up_sample`
stage resizes every input to the fixed `1024 × 1024` before the encoder
(so `h = w = 32` in the backbone), and the output has spatial size
`1024 × 1024` whatever the input spatial size `hIn × wIn` was. -/
noncomputable def DLinkNet34.forwardUpsampled {ncls : ℕ} (m : InterpMode)
    (enc : DLinkEncoder 64 128 256 512 32 32) (p : DBlockParams ℝ 512)
    (dec : DLinkDecoders 64 128 256 512 ncls)
    (resize : (c h w : ℕ) → Img ℝ c h w → Img ℝ c 1024 1024)
    {hIn wIn : ℕ} (x : Img ℝ 3 hIn wIn) : Img ℝ ncls 1024 1024 :=
  dlinkForward enc (DBlock.forward p) dec (up_sample resize (some m) x)

/-- C10: constructed with the default `interp_mode=None`, `DLinkNet34`
applies the identity before the encoder, so `forward` preserves the input
spatial size (type `Img ℝ ncls (32 h) (32 w)` for a `32 h × 32 w` input,
exactly `DLinkNet34.forward`); with any supplied `interp_mode`, every input
of any spatial size `hIn × wIn` is resized to the fixed `1024 × 1024` before
the encoder, so `forward` returns spatial size `1024 × 1024` regardless of
the input size (the type of `DLinkNet34.forwardUpsampled`). -/
theorem C10_interp_mode :
    (∀ (resize : (c h w : ℕ) → Img ℝ c h w → Img ℝ c 1024 1024)
       (c h w : ℕ) (x : Img ℝ c h w), up_sample resize none x = x) ∧
    (∀ (resize : (c h w : ℕ) → Img ℝ c h w → Img ℝ c 1024 1024)
       (m : InterpMode) (c h w : ℕ) (x : Img ℝ c h w),
       up_sample resize (some m) x = resize c h w x) ∧
    (∀ (ncls h w : ℕ) (enc : DLinkEncoder 64 128 256 512 h w)
       (p : DBlockParams ℝ 512) (dec : DLinkDecoders 64 128 256 512 ncls) resize
       (x : Img ℝ 3 (2 * (2 * (2 * (2 * (2 * h))))) (2 * (2 * (2 * (2 * (2 * w)))))),
       DLinkNet34.forwardDefault enc p dec resize x = DLinkNet34.forward enc p dec x) ∧
    (∀ (ncls : ℕ) (m : InterpMode) (enc : DLinkEncoder 64 128 256 512 32 32)
       (p : DBlockParams ℝ 512) (dec : DLinkDecoders 64 128 256 512 ncls) resize
       (hIn wIn : ℕ) (x : Img ℝ 3 hIn wIn),
       DLinkNet34.forwardUpsampled m enc p dec resize x =
         dlinkForward enc (DBlock.forward p) dec (resize 3 hIn wIn x)) :=
  ⟨fun _ _ _ _ _ => rfl, fun _ _ _ _ _ _ => rfl,
   fun _ _ _ _ _ _ _ _ => rfl, fun _ _ _ _ _ _ _ _ _ => rfl⟩
